import Mathlib

/-!
Verification development for the `bevy_gameplay_effects` stat/effect engine.

The embedding below translates the core of the engine into Lean:
`src/src/calculation.rs` (magnitude resolution, bounds, immediate application,
recalculation), `src/src/effects.rs` (effect storage, stacking, removal, the
per-tick processor), `src/src/timing.rs` (timers) and
`src/src/gameplay_stats.rs` (the per-entity stat set).

Numbers: the engine computes on `f32`.  We model `f32` values exactly as an
extended rational type `FP` with `nan` and signed infinities, mirroring the
IEEE special-value rules the code relies on (comparisons are false on `nan`,
`x / 0` yields an infinity or `nan`, `0 * inf = nan`, Rust's `f32::max`/`min`
ignore `nan`).  Finite arithmetic is exact (no rounding); every concrete value
exercised below is a small integer or dyadic rational, where `f32` arithmetic
is itself exact.  Fractional exponents in `powf` fall outside the rational
model and are mapped to `nan`; no theorem below depends on them.

The rational payload is a self-contained normalized fraction type `Q`
(numerator, positive denominator, reduced by `Nat.gcd`) rather than Mathlib's
`ℚ`, so that every concrete run of the engine reduces inside the kernel.
Every `Q` produced by the operations below is normalized, so propositional
equality on `Q` coincides with equality of the represented rationals.
-/

set_option maxRecDepth 4000000

namespace GameplayEffects

/-- An exact rational: integer numerator over a positive denominator.  All
constructors below normalize, keeping values canonical (reduced fraction,
denominator positive). -/
structure Q where
  num : Int
  den : Nat
deriving DecidableEq, Repr

namespace Q

/-- Normalize a fraction: divide out `Nat.gcd |n| d`.  The `d = 0` branch is
unreachable for the operations below (denominators are products of positive
denominators). -/
def norm (n : Int) (d : Nat) : Q :=
  if d = 0 then ⟨0, 1⟩
  else
    let g := Nat.gcd n.natAbs d
    ⟨n / (g : Int), d / g⟩

/-- Embed an integer. -/
def ofInt (n : Int) : Q := ⟨n, 1⟩

/-- Exact addition. -/
def add (a b : Q) : Q := norm (a.num * b.den + b.num * a.den) (a.den * b.den)

/-- Exact multiplication. -/
def mul (a b : Q) : Q := norm (a.num * b.num) (a.den * b.den)

/-- Exact negation (canonical values stay canonical). -/
def neg (a : Q) : Q := ⟨-a.num, a.den⟩

/-- Exact division; the caller (`FP.fdiv`) has already ruled out a zero
divisor.  The divisor's sign moves to the numerator. -/
def div (a b : Q) : Q :=
  if 0 ≤ b.num then norm (a.num * b.den) (a.den * b.num.natAbs)
  else norm (-(a.num * b.den)) (a.den * b.num.natAbs)

/-- `a ≤ b` by cross-multiplication (denominators are positive). -/
def ble (a b : Q) : Bool := decide (a.num * b.den ≤ b.num * a.den)

/-- `a < b` by cross-multiplication. -/
def blt (a b : Q) : Bool := decide (a.num * b.den < b.num * a.den)

/-- Zero test (valid for any positive denominator). -/
def isZero (a : Q) : Bool := decide (a.num = 0)

/-- Positivity test (valid for any positive denominator). -/
def isPos (a : Q) : Bool := decide (0 < a.num)

/-- Nonnegativity test (valid for any positive denominator). -/
def isNonneg (a : Q) : Bool := decide (0 ≤ a.num)

instance : OfNat Q n := ⟨⟨n, 1⟩⟩

end Q

/-- Exact-rational model of an `f32` value: a finite rational, a signed
infinity (`inf true` is positive infinity), or `nan`. -/
inductive FP where
  | num (q : Q)
  | inf (pos : Bool)
  | nan
deriving DecidableEq, Repr

namespace FP

/-- IEEE addition on the model (exact in the finite case). -/
def fadd : FP → FP → FP
  | nan, _ => nan
  | _, nan => nan
  | num a, num b => num (Q.add a b)
  | inf p, num _ => inf p
  | num _, inf p => inf p
  | inf p, inf q => if p = q then inf p else nan

/-- IEEE negation on the model. -/
def fneg : FP → FP
  | num a => num (Q.neg a)
  | inf p => inf (!p)
  | nan => nan

/-- IEEE subtraction on the model. -/
def fsub (a b : FP) : FP := fadd a (fneg b)

/-- IEEE multiplication on the model (`0 * inf = nan`). -/
def fmul : FP → FP → FP
  | nan, _ => nan
  | _, nan => nan
  | num a, num b => num (Q.mul a b)
  | inf p, num b => if b.isZero then nan else inf (p = b.isPos)
  | num a, inf p => if a.isZero then nan else inf (p = a.isPos)
  | inf p, inf q => inf (p = q)

/-- IEEE division on the model (`x / 0` is an infinity for `x ≠ 0`,
`0 / 0 = nan`; the unsigned rational zero is treated as `+0`). -/
def fdiv : FP → FP → FP
  | nan, _ => nan
  | _, nan => nan
  | num a, num b =>
      if b.isZero then (if a.isZero then nan else inf a.isPos)
      else num (Q.div a b)
  | inf p, num b => inf (p = b.isNonneg)
  | num _, inf _ => num 0
  | inf _, inf _ => nan

/-- IEEE `<=` (false whenever an operand is `nan`). -/
def fle : FP → FP → Bool
  | nan, _ => false
  | _, nan => false
  | num a, num b => Q.ble a b
  | inf false, _ => true
  | _, inf true => true
  | inf true, num _ => false
  | inf true, inf false => false
  | num _, inf false => false

/-- IEEE `<` (false whenever an operand is `nan`). -/
def flt : FP → FP → Bool
  | nan, _ => false
  | _, nan => false
  | num a, num b => Q.blt a b
  | inf false, inf false => false
  | inf false, _ => true
  | num _, inf true => true
  | inf true, _ => false
  | num _, inf false => false

/-- IEEE `>=`. -/
def fge (a b : FP) : Bool := fle b a

/-- IEEE `>`. -/
def fgt (a b : FP) : Bool := flt b a

/-- Rust `f32::max`: returns the other operand when one is `nan`. -/
def fmax (a b : FP) : FP :=
  match a, b with
  | nan, b => b
  | a, nan => a
  | a, b => if fle a b then b else a

/-- Rust `f32::min`: returns the other operand when one is `nan`. -/
def fmin (a b : FP) : FP :=
  match a, b with
  | nan, b => b
  | a, nan => a
  | a, b => if fle a b then a else b

instance : Add FP := ⟨fadd⟩
instance : Sub FP := ⟨fsub⟩
instance : Mul FP := ⟨fmul⟩
instance : Div FP := ⟨fdiv⟩
instance : Neg FP := ⟨fneg⟩
instance : OfNat FP n := ⟨num ⟨n, 1⟩⟩

/-- Natural-number power by repeated IEEE multiplication (`x^0 = 1`). -/
def fnpow (x : FP) : Nat → FP
  | 0 => num 1
  | n + 1 => fmul (fnpow x n) x

/-- Rust `f32::powf`, restricted to the rational model: integer exponents are
computed exactly, `x^1 = x`, `x^0 = 1`; fractional or infinite exponents fall
outside the model and are mapped to `nan` (no theorem depends on them). -/
def fpowf (x e : FP) : FP :=
  match e with
  | num q =>
      if q = ⟨1, 1⟩ then x
      else if q.isZero then num 1
      else if q.den = 1 then
        (if 0 ≤ q.num then fnpow x q.num.toNat
         else fdiv (num ⟨1, 1⟩) (fnpow x (-q.num).toNat))
      else nan
  | _ => nan

end FP

open FP

/-- `f32::MAX` as an exact rational: `(2^24 - 1) * 2^104`. -/
def f32_max : FP := .num ⟨(2 ^ 24 - 1) * 2 ^ 104, 1⟩

/-- `f32::MIN` as an exact rational: `-f32::MAX`. -/
def f32_min : FP := .num ⟨-((2 ^ 24 - 1) * 2 ^ 104), 1⟩

/-! ## Data model (`gameplay_stats.rs`, `timing.rs`, `calculation.rs`, `effects.rs`) -/

/-- One stat slot (`GameplayStat` in `gameplay_stats.rs`): live value, designer
baseline, and the baseline adjusted by stored effects. -/
structure GameplayStat where
  current_value : FP
  base_value : FP
  modified_base : FP
deriving DecidableEq, Repr

/-- `GameplayStat::new`: `modified_base` starts equal to `base_value`. -/
def GameplayStat.new (base_value current_value : FP) : GameplayStat :=
  ⟨current_value, base_value, base_value⟩

/-- A stat identifier (the dense `u8` index of the stat enumeration). -/
abbrev StatId := Nat

/-- An entity identifier (opaque in the engine, a lookup key). -/
abbrev Entity := Nat

/-- One entity's stat set (`GameplayStats<T>`), indexed by stat identifier. -/
def Stats := StatId → GameplayStat

/-- `GameplayStats::get`. -/
def Stats.get (s : Stats) (i : StatId) : GameplayStat := s i

/-- `GameplayStats::get_mut` followed by writing the slot back. -/
def Stats.setStat (s : Stats) (i : StatId) (v : GameplayStat) : Stats :=
  fun j => if j = i then v else s j

/-- `SmallTimer` (`timing.rs`): a countdown holding the remaining seconds. -/
structure SmallTimer where
  remaining : FP
deriving DecidableEq, Repr

/-- `SmallTimer::tick`. -/
def SmallTimer.tick (t : SmallTimer) (secs : FP) : SmallTimer :=
  ⟨t.remaining - secs⟩

/-- `SmallTimer::finished`: `remaining <= 0`. -/
def SmallTimer.finished (t : SmallTimer) : Bool := fle t.remaining 0

/-- `RepeatingSmallTimer` (`timing.rs`). -/
structure RepeatingSmallTimer where
  period : FP
  remaining : FP
  triggered : Bool
deriving DecidableEq, Repr

/-- `RepeatingSmallTimer::tick`: on reaching zero, re-arm by one period
(floored at zero) and raise the `triggered` flag for this tick. -/
def RepeatingSmallTimer.tick (t : RepeatingSmallTimer) (secs : FP) : RepeatingSmallTimer :=
  let r := t.remaining - secs
  if fle r 0 then
    { period := t.period, remaining := fmax (r + t.period) 0, triggered := true }
  else
    { period := t.period, remaining := r, triggered := false }

/-- `EffectDuration` (`timing.rs`). -/
inductive EffectDuration where
  | Immediate
  | Persistent (timer : Option SmallTimer)
  | Continuous (timer : Option SmallTimer)
  | Repeating (period : RepeatingSmallTimer) (timer : Option SmallTimer)
deriving DecidableEq, Repr

/-- `EffectCalculation` (`calculation.rs`). -/
inductive EffectCalculation where
  | Additive
  | Multiplicative
  | LowerBound
  | UpperBound
deriving DecidableEq, Repr

/-- `StatScalingParams` (`calculation.rs`). -/
structure StatScalingParams where
  shift : FP
  stat_offset : FP
  multiplier : FP
  exponent : FP
  min : Option FP
  max : Option FP
deriving DecidableEq, Repr

/-- `StatScalingParams::default`. -/
def StatScalingParams.default : StatScalingParams :=
  ⟨0, 0, .num 1, .num 1, none, none⟩

/-- `StatScalingParams::apply`:
`shift + multiplier * (stat - stat_offset).powf(exponent)`, then the optional
`min`/`max` clamps via `f32::max`/`f32::min`. -/
def StatScalingParams.apply (f : StatScalingParams) (stat : FP) : FP :=
  let out := f.shift + f.multiplier * fpowf (stat - f.stat_offset) f.exponent
  let out := match f.min with
    | some m => fmax m out
    | none => out
  match f.max with
  | some m => fmin m out
  | none => out

/-- `EffectMagnitude` (`calculation.rs`). -/
inductive EffectMagnitude where
  | Fixed (x : FP)
  | LocalStat (stat : StatId) (f : StatScalingParams)
  | NonlocalStat (stat : StatId) (f : StatScalingParams) (source : Entity)
deriving DecidableEq, Repr

/-- `StackingPolicy` (`calculation.rs`); the `Default` variant is `NoStacking`. -/
inductive StackingPolicy where
  | NoStacking
  | NoStackingResetDuration
  | MultipleEffects (max : Nat)
  | MultipleEffectsResetDurations (max : Nat)
deriving DecidableEq, Repr

/-- A tag identity (`TagId` from `bevy_hierarchical_tags`, an opaque token
compared only for equality). -/
abbrev TagId := Nat

/-- `GameplayEffect` (`effects.rs`): one effect descriptor. -/
structure GameplayEffect where
  stat_target : StatId
  magnitude : EffectMagnitude
  calculation : EffectCalculation
  duration : EffectDuration
  tag : Option TagId
deriving DecidableEq, Repr

/-- `GameplayEffect::get_duration_timer`: the optional expiry timer of the
duration (for `Repeating`, the overall timer, not the period). -/
def GameplayEffect.get_duration_timer (e : GameplayEffect) : Option SmallTimer :=
  match e.duration with
  | .Continuous (some t) => some t
  | .Persistent (some t) => some t
  | .Repeating _ (some t) => some t
  | _ => none

/-- `GameplayEffect::set_duration` with a `SmallTimer` argument: replaces the
remaining time of the duration's timer when one is present; the `Err` of a
timerless duration is discarded by the callers (`.ok()`). -/
def GameplayEffect.set_duration_from (e : GameplayEffect) (t : SmallTimer) : GameplayEffect :=
  match e.duration with
  | .Continuous (some _) => { e with duration := .Continuous (some t) }
  | .Persistent (some _) => { e with duration := .Persistent (some t) }
  | .Repeating p (some _) => { e with duration := .Repeating p (some t) }
  | _ => e

/-- `ActiveTags::add`: push the tag if not already present. -/
def tagsAdd (ts : List TagId) (t : TagId) : List TagId :=
  if ts.contains t then ts else ts ++ [t]

/-- `ActiveTags::remove`: retain everything except the tag. -/
def tagsRemove (ts : List TagId) (t : TagId) : List TagId :=
  ts.filter (fun x => x ≠ t)

/-- `ActiveEffects::match_effect_type(tag).count()`: how many stored effects
carry exactly this tag. -/
def countTag (es : List GameplayEffect) (t : TagId) : Nat :=
  (es.filter (fun e => e.tag = some t)).length

/-! ## Events (`events.rs`) -/

/-- `EffectMetadata`: payload of the add/remove/periodic notifications. -/
structure EffectMetadata where
  target_entity : Entity
  tag : Option TagId
  source_entity : Option Entity
deriving DecidableEq, Repr

/-- `BoundsBreachedMetadata`: payload of a bound-breach notification. -/
structure BoundsBreachedMetadata where
  target_entity : Entity
  stat : StatId
  bound : EffectCalculation
deriving DecidableEq, Repr

/-! ## Magnitude resolution and calculation (`calculation.rs`) -/

/-- The environment of foreign entities: the host's query for another
entity's `GameplayStats`, failing (`none`) when that entity has despawned. -/
def Env := Entity → Option Stats

/-- Modelled from the spec: `get_effect_source_stats` is imported by
`src/src/effects.rs` but its definition is not under `src/`.  Per spec §4.1
the resolver needs the *same* entity's stat set for `Fixed`/`LocalStat` and
the source entity's stat set for `NonlocalStat`, the latter lookup failing
when the source entity no longer exists.  `self_stats` is the target entity's
own stat set (the code's `stats_query.get(entity)`). -/
def get_effect_source_stats (effect : GameplayEffect) (self_entity : Entity)
    (self_stats : Stats) (env : Env) : Option Stats :=
  match effect.magnitude with
  | .NonlocalStat _ _ source =>
      if source = self_entity then some self_stats else env source
  | _ => some self_stats

/-- `get_effect_amount`, in the two-argument form called by
`src/src/effects.rs` (the three-argument form in `calculation.rs` computes the
same value when the lookup succeeds).  Modelled from the spec for the missing
branch: when the source stat set is unavailable the effect is stale and
contributes zero to any concurrent aggregation (spec §4.1). -/
def get_effect_amount (effect : GameplayEffect) (source : Option Stats) : FP :=
  match effect.magnitude with
  | .Fixed x => x
  | .LocalStat stat f =>
      match source with
      | some s => f.apply (s.get stat).current_value
      | none => 0
  | .NonlocalStat stat f _ =>
      match source with
      | some s => f.apply (s.get stat).current_value
      | none => 0

/-- The amount an effect contributes, resolving its source stats first. -/
def effectAmount (self_entity : Entity) (self_stats : Stats) (env : Env)
    (effect : GameplayEffect) : FP :=
  get_effect_amount effect (get_effect_source_stats effect self_entity self_stats env)

/-- `get_bounds` (`calculation.rs`): scan the stored effects for
`LowerBound`/`UpperBound` effects on the stat; returns `(upper, lower)` with
defaults `(f32::MAX, f32::MIN)`; a candidate replaces the running bound only
under a strict comparison. -/
def get_bounds (stat_variant : StatId) (self_entity : Entity)
    (effects : List GameplayEffect) (self_stats : Stats) (env : Env) : FP × FP :=
  effects.foldl
    (fun (b : FP × FP) effect =>
      if effect.stat_target ≠ stat_variant then b
      else
        match effect.calculation with
        | .LowerBound =>
            let amount := effectAmount self_entity self_stats env effect
            if fgt amount b.2 then (b.1, amount) else b
        | .UpperBound =>
            let amount := effectAmount self_entity self_stats env effect
            if flt amount b.1 then (amount, b.2) else b
        | _ => b)
    (f32_max, f32_min)

/-- The bound-check tail shared by `apply_immediate` (`calculation.rs` lines
88-99) and `recalculate_stats` (lines 138-157): if the candidate value `v` is
`>=` the upper bound, emit an UpperBound breach and clamp; then, if the
(possibly clamped) value is `<=` the lower bound, emit a LowerBound breach
and clamp. -/
def clampSteps (self_entity : Entity) (stat : StatId) (v ub lb : FP) :
    FP × List BoundsBreachedMetadata :=
  let step1 : FP × List BoundsBreachedMetadata :=
    if fge v ub then (ub, [⟨self_entity, stat, .UpperBound⟩]) else (v, [])
  if fle step1.1 lb then (lb, step1.2 ++ [⟨self_entity, stat, .LowerBound⟩])
  else step1

/-- `apply_immediate` (`calculation.rs` lines 66-100, with the amount passed
in by the caller as in `effects.rs`): apply the amount to the stat's current
value according to the calculation kind, then clamp to the live bounds from
the stored effects, emitting a breach event per `>=`/`<=` check that fires. -/
def apply_immediate (self_entity : Entity) (effect : GameplayEffect)
    (stats : Stats) (amount : FP) (effects : List GameplayEffect) (env : Env) :
    Stats × List BoundsBreachedMetadata :=
  let b := get_bounds effect.stat_target self_entity effects stats env
  let st := stats.get effect.stat_target
  let cur :=
    match effect.calculation with
    | .Additive => st.current_value + amount
    | .Multiplicative => st.current_value * amount
    | .LowerBound => fmax st.current_value amount
    | .UpperBound => fmin st.current_value amount
  let r := clampSteps self_entity effect.stat_target cur b.1 b.2
  (stats.setStat effect.stat_target { st with current_value := r.1 }, r.2)

/-- Accumulator of the single pass in `recalculate_stats`. -/
structure RecalcAcc where
  additive : FP
  multiplicative : FP
  lower_bound : FP
  upper_bound : FP
deriving DecidableEq, Repr

/-- The loop of `recalculate_stats` (`calculation.rs` lines 110-126): one
left-to-right pass accumulating the additive sum, multiplicative product and
both bounds over the effects targeting the stat. -/
def recalcLoop (self_entity : Entity) (self_stats : Stats) (env : Env)
    (stat_target : StatId) (effects : List GameplayEffect) (acc : RecalcAcc) : RecalcAcc :=
  effects.foldl
    (fun acc effect =>
      let amount := effectAmount self_entity self_stats env effect
      if effect.stat_target = stat_target then
        match effect.calculation with
        | .Additive => { acc with additive := acc.additive + amount }
        | .Multiplicative => { acc with multiplicative := acc.multiplicative * amount }
        | .LowerBound => { acc with lower_bound := fmax acc.lower_bound amount }
        | .UpperBound => { acc with upper_bound := fmin acc.upper_bound amount }
      else acc)
    acc

/-- `recalculate_stats` (`calculation.rs` lines 103-158): aggregate all stored
effects on the stat, recompute the modified base
(`(base + additive) * multiplicative` clamped by `f32::min`/`f32::max` to the
aggregated bounds), rescale the current value by `new_base / prev_base`, then
run the same `>=`/`<=` breach checks as `apply_immediate`. -/
def recalculate_stats (self_entity : Entity) (effects : List GameplayEffect)
    (stat_target : StatId) (stats : Stats) (env : Env) :
    Stats × List BoundsBreachedMetadata :=
  let acc := recalcLoop self_entity stats env stat_target effects
    ⟨0, .num ⟨1, 1⟩, f32_min, f32_max⟩
  let st := stats.get stat_target
  let prev_base := st.modified_base
  let new_base := (st.base_value + acc.additive) * acc.multiplicative
  let new_base := fmin acc.upper_bound new_base
  let new_base := fmax acc.lower_bound new_base
  let cur := st.current_value * (new_base / prev_base)
  let r := clampSteps self_entity stat_target cur acc.upper_bound acc.lower_bound
  (stats.setStat stat_target
    { st with modified_base := new_base, current_value := r.1 }, r.2)

/-! ## Effect lifecycle (`effects.rs`) -/

/-- One entity's mutable effect state: its stat set (`GameplayStats`), its
stored effect list (`ActiveEffects`) and its tag list (`ActiveTags`). -/
structure EffectEntity where
  stats : Stats
  effects : List GameplayEffect
  tags : List TagId

/-- The timer-refresh loop shared by the two `ResetDuration(s)` policies in
`add_effect`: when the incoming effect carries a duration timer, copy it onto
every stored same-tag effect's timer (timerless durations are left alone,
their `Err` is discarded). -/
def refresh_same_tag (es : List GameplayEffect) (tag : TagId)
    (incoming : GameplayEffect) : List GameplayEffect :=
  match incoming.get_duration_timer with
  | some t => es.map (fun e => if e.tag = some tag then e.set_duration_from t else e)
  | none => es

/-- Outcome of one `add_effect` trigger: the entity's new state plus the
`OnEffectAdded` and `OnBoundsBreached` events written. -/
structure AddOut where
  entity : EffectEntity
  added : List EffectMetadata
  breached : List BoundsBreachedMetadata

/-- The storage step of `add_effect` (`effects.rs` lines 118-163): for a
non-immediate effect, add the tag, resolve the stacking policy (defaulting to
`NoStacking`) and either store the effect, refresh timers, or reject.  The
`Bool` is false exactly on the `return;` paths of the `match`. -/
def storeStep (stacking : TagId → Option StackingPolicy)
    (effect : GameplayEffect) (ent : EffectEntity) : EffectEntity × Bool :=
  if effect.duration = .Immediate then (ent, true)
  else
    match effect.tag with
    | none => ({ ent with effects := ent.effects ++ [effect] }, true)
    | some tag =>
      let ent := { ent with tags := tagsAdd ent.tags tag }
      match (stacking tag).getD .NoStacking with
      | .NoStacking =>
          if countTag ent.effects tag = 0 then
            ({ ent with effects := ent.effects ++ [effect] }, true)
          else (ent, false)
      | .NoStackingResetDuration =>
          if countTag ent.effects tag = 0 then
            ({ ent with effects := ent.effects ++ [effect] }, true)
          else
            ({ ent with effects := refresh_same_tag ent.effects tag effect }, false)
      | .MultipleEffects max =>
          if countTag ent.effects tag < max then
            ({ ent with effects := ent.effects ++ [effect] }, true)
          else (ent, false)
      | .MultipleEffectsResetDurations max =>
          let refreshed := refresh_same_tag ent.effects tag effect
          if countTag refreshed tag < max then
            ({ ent with effects := refreshed ++ [effect] }, true)
          else ({ ent with effects := refreshed }, false)

/-- `add_effect` (`effects.rs` lines 103-180): resolve the amount up front,
run the storage/stacking step, then — unless rejected — apply an `Immediate`
effect directly or recalculate after storing a `Persistent` one, and emit
`OnEffectAdded`. -/
def add_effect (self_entity : Entity) (env : Env)
    (stacking : TagId → Option StackingPolicy) (effect : GameplayEffect)
    (source_entity : Option Entity) (ent : EffectEntity) : AddOut :=
  let source := get_effect_source_stats effect self_entity ent.stats env
  let amount := get_effect_amount effect source
  let stored := storeStep stacking effect ent
  if stored.2 = false then ⟨stored.1, [], []⟩
  else
    let ent := stored.1
    let applied : Stats × List BoundsBreachedMetadata :=
      match effect.duration with
      | .Immediate => apply_immediate self_entity effect ent.stats amount ent.effects env
      | .Persistent _ => recalculate_stats self_entity ent.effects effect.stat_target ent.stats env
      | _ => (ent.stats, [])
    ⟨{ ent with stats := applied.1 },
      [⟨self_entity, effect.tag, source_entity⟩], applied.2⟩

/-- The removal loop of `remove_effect` (`effects.rs` lines 202-208): walk the
collected indices in reverse, remove each effect and recalculate its target
stat.  Index lookups are always in bounds for the index lists this function
receives (strictly increasing positions of the original list, consumed in
reverse); the `none` fallback is unreachable there. -/
def removeLoop (self_entity : Entity) (env : Env) (source_entity : Option Entity) :
    List Nat → EffectEntity → List EffectMetadata → List BoundsBreachedMetadata →
    EffectEntity × List EffectMetadata × List BoundsBreachedMetadata
  | [], ent, removedEv, breached => (ent, removedEv, breached)
  | i :: rest, ent, removedEv, breached =>
    match ent.effects[i]? with
    | none => removeLoop self_entity env source_entity rest ent removedEv breached
    | some effect =>
      let effects := ent.effects.eraseIdx i
      let r := recalculate_stats self_entity effects effect.stat_target ent.stats env
      removeLoop self_entity env source_entity rest
        { ent with effects := effects, stats := r.1 }
        (removedEv ++ [⟨self_entity, effect.tag, source_entity⟩])
        (breached ++ r.2)

/-- `remove_effect` (`effects.rs` lines 182-209): drop the tag from
`ActiveTags`, collect the indices of every stored effect whose tag equals the
requested one (`Option` equality), then remove them in reverse index order,
recalculating the target stat and emitting `OnEffectRemoved` per removal. -/
def remove_effect (self_entity : Entity) (env : Env) (tag : Option TagId)
    (source_entity : Option Entity) (ent : EffectEntity) :
    EffectEntity × List EffectMetadata × List BoundsBreachedMetadata :=
  let ent :=
    match tag with
    | some t => { ent with tags := tagsRemove ent.tags t }
    | none => ent
  let to_remove := ((List.range ent.effects.length).filter
    (fun i => (ent.effects[i]?.map (fun e => e.tag)).getD none = tag))
  removeLoop self_entity env source_entity to_remove.reverse ent [] []

/-! ## The per-tick processor (`effects.rs` lines 211-286) -/

/-- Whether a magnitude reads a foreign entity's stat. -/
def EffectMagnitude.isNonlocal : EffectMagnitude → Bool
  | .NonlocalStat .. => true
  | _ => false

/-- Whether a duration is `Continuous`. -/
def EffectDuration.isContinuous : EffectDuration → Bool
  | .Continuous _ => true
  | _ => false

/-- The timer phase of `process_active_effects` (lines 222-234): advance the
duration timers of every stored effect by the elapsed time. -/
def tick_durations (delta : FP) (es : List GameplayEffect) : List GameplayEffect :=
  es.map (fun e =>
    match e.duration with
    | .Continuous (some t) => { e with duration := .Continuous (some (t.tick delta)) }
    | .Persistent (some t) => { e with duration := .Persistent (some (t.tick delta)) }
    | .Repeating p t =>
        { e with duration :=
            EffectDuration.Repeating (p.tick delta) (t.map (fun timer => timer.tick delta)) }
    | _ => e)

/-- Accumulator of the apply phase of `process_active_effects`. -/
structure ApplyAcc where
  stats : Stats
  removed : List Nat
  breached : List BoundsBreachedMetadata
  periodic : List EffectMetadata

/-- One iteration of the apply phase of `process_active_effects` (lines
239-275) on the effect at position `idx`: mark it for removal if its
`NonlocalStat` source is gone and again if its expiry timer has finished,
and apply a `Continuous` (scaled by elapsed time) or just-triggered
`Repeating` effect through `apply_immediate`.  `all` is the whole ticked
list, used for the live bounds. -/
def applyStep (self_entity : Entity) (env : Env) (delta : FP)
    (all : List GameplayEffect) (effect : GameplayEffect) (idx : Nat)
    (acc : ApplyAcc) : ApplyAcc :=
  let source := get_effect_source_stats effect self_entity acc.stats env
  let removed :=
    if effect.magnitude.isNonlocal && source.isNone then acc.removed ++ [idx]
    else acc.removed
  let amount := get_effect_amount effect source
  let amount := if effect.duration.isContinuous then amount * delta else amount
  let removed :=
    match effect.get_duration_timer with
    | some t => if t.finished then removed ++ [idx] else removed
    | none => removed
  let step : Bool × List EffectMetadata :=
    match effect.duration with
    | .Repeating p _ =>
        if p.triggered then (true, acc.periodic ++ [⟨self_entity, effect.tag, none⟩])
        else (false, acc.periodic)
    | .Continuous _ => (true, acc.periodic)
    | _ => (false, acc.periodic)
  let applied : Stats × List BoundsBreachedMetadata :=
    if step.1 then apply_immediate self_entity effect acc.stats amount all env
    else (acc.stats, [])
  ⟨applied.1, removed, acc.breached ++ applied.2, step.2⟩

/-- The apply phase of `process_active_effects` (lines 236-276): walk the
ticked effect list in order, threading the accumulator through `applyStep`. -/
def applyLoop (self_entity : Entity) (env : Env) (delta : FP)
    (all : List GameplayEffect) :
    List GameplayEffect → Nat → ApplyAcc → ApplyAcc
  | [], _, acc => acc
  | effect :: rest, idx, acc =>
    applyLoop self_entity env delta all rest (idx + 1)
      (applyStep self_entity env delta all effect idx acc)

/-- The removal phase of `process_active_effects` (lines 278-284): consume the
marked indices in reverse order, removing each from the list (`SmallVec::remove`),
dropping the effect's tag and emitting `OnEffectRemoved`.  An index at or past
the current length makes `SmallVec::remove` panic; that outcome is `none`. -/
def removeMarked (self_entity : Entity) :
    List GameplayEffect → List TagId → List Nat → List EffectMetadata →
    Option (List GameplayEffect × List TagId × List EffectMetadata)
  | effects, tags, [], evs => some (effects, tags, evs)
  | effects, tags, i :: rest, evs =>
    match effects[i]? with
    | none => none
    | some effect =>
        removeMarked self_entity (effects.eraseIdx i)
          (match effect.tag with
           | some t => tagsRemove tags t
           | none => tags)
          rest (evs ++ [⟨self_entity, effect.tag, none⟩])

/-- Outcome of one entity's pass through `process_active_effects`. -/
structure ProcOut where
  stats : Stats
  effects : List GameplayEffect
  tags : List TagId
  removedEv : List EffectMetadata
  breached : List BoundsBreachedMetadata
  periodic : List EffectMetadata

/-- The entity's effect list after the timer phase of one tick. -/
def procTicked (delta : FP) (ent : EffectEntity) : List GameplayEffect :=
  tick_durations delta ent.effects

/-- The accumulator after the apply phase of one tick. -/
def procApply (self_entity : Entity) (env : Env) (delta : FP)
    (ent : EffectEntity) : ApplyAcc :=
  applyLoop self_entity env delta (procTicked delta ent) (procTicked delta ent) 0
    ⟨ent.stats, [], [], []⟩

/-- `process_active_effects` for one entity: tick all duration timers, run the
apply phase, then remove the marked effects in reverse index order.  `none`
models the panic of an out-of-bounds `SmallVec::remove`. -/
def process_active_effects (self_entity : Entity) (env : Env) (delta : FP)
    (ent : EffectEntity) : Option ProcOut :=
  let acc := procApply self_entity env delta ent
  match removeMarked self_entity (procTicked delta ent) ent.tags acc.removed.reverse [] with
  | none => none
  | some (effects, tags, removedEv) =>
      some ⟨acc.stats, effects, tags, removedEv, acc.breached, acc.periodic⟩

/-! ## Spec-side formulations

The definitions below follow the specification's wording (aggregate sums,
products, clamp, stacking decision table); the theorems relate them to the
embedded code. -/

/-- `clamp(x, lo, hi)` in the spec's recalculation formula, realized with the
`f32::min`-then-`f32::max` orientation the formula denotes. -/
def fclamp (x lo hi : FP) : FP := fmax lo (fmin hi x)

/-- The effects that target `stat` with calculation kind `c`. -/
def targetsWith (stat : StatId) (c : EffectCalculation) (e : GameplayEffect) : Bool :=
  decide (e.stat_target = stat) && decide (e.calculation = c)

/-- Spec: the sum of the Additive magnitudes over all stored effects
targeting the stat. -/
def additiveSum (self_entity : Entity) (self_stats : Stats) (env : Env)
    (stat : StatId) (es : List GameplayEffect) : FP :=
  (es.filter (targetsWith stat .Additive)).foldl
    (fun a e => a + effectAmount self_entity self_stats env e) 0

/-- Spec: the product of the Multiplicative magnitudes over all stored
effects targeting the stat. -/
def multiplicativeProduct (self_entity : Entity) (self_stats : Stats) (env : Env)
    (stat : StatId) (es : List GameplayEffect) : FP :=
  (es.filter (targetsWith stat .Multiplicative)).foldl
    (fun a e => a * effectAmount self_entity self_stats env e) (.num ⟨1, 1⟩)

/-- Spec: the max over LowerBound magnitudes (default `f32::MIN`). -/
def lowerBoundAgg (self_entity : Entity) (self_stats : Stats) (env : Env)
    (stat : StatId) (es : List GameplayEffect) : FP :=
  (es.filter (targetsWith stat .LowerBound)).foldl
    (fun a e => fmax a (effectAmount self_entity self_stats env e)) f32_min

/-- Spec: the min over UpperBound magnitudes (default `f32::MAX`). -/
def upperBoundAgg (self_entity : Entity) (self_stats : Stats) (env : Env)
    (stat : StatId) (es : List GameplayEffect) : FP :=
  (es.filter (targetsWith stat .UpperBound)).foldl
    (fun a e => fmin a (effectAmount self_entity self_stats env e)) f32_max

/-- Spec: `new_base = clamp((base_value + additive_sum) * multiplicative_product,
lower, upper)`. -/
def specNewBase (self_entity : Entity) (self_stats : Stats) (env : Env)
    (stat : StatId) (es : List GameplayEffect) : FP :=
  fclamp (((self_stats.get stat).base_value +
            additiveSum self_entity self_stats env stat es) *
          multiplicativeProduct self_entity self_stats env stat es)
    (lowerBoundAgg self_entity self_stats env stat es)
    (upperBoundAgg self_entity self_stats env stat es)

/-- Spec: the proportionally rescaled current value,
`current * (new_base / previous_modified_base)`. -/
def specRescaled (self_entity : Entity) (self_stats : Stats) (env : Env)
    (stat : StatId) (es : List GameplayEffect) : FP :=
  (self_stats.get stat).current_value *
    (specNewBase self_entity self_stats env stat es / (self_stats.get stat).modified_base)

/-- Spec §4.3, the stacking decision table: given the policy and the number of
stored same-tag effects, whether the incoming instance is accepted (stored)
and whether the existing instances' timers are refreshed. -/
def specStackingDecision : StackingPolicy → Nat → Bool × Bool
  | .NoStacking, n => (decide (n = 0), false)
  | .NoStackingResetDuration, n => (decide (n = 0), decide (n ≠ 0))
  | .MultipleEffects m, n => (decide (n < m), false)
  | .MultipleEffectsResetDurations m, n => (decide (n < m), true)

/-- The rejection condition of the stacking table. -/
def policyRejects (policy : StackingPolicy) (n : Nat) : Prop :=
  match policy with
  | .NoStacking => n ≠ 0
  | .NoStackingResetDuration => n ≠ 0
  | .MultipleEffects m => m ≤ n
  | .MultipleEffectsResetDurations m => m ≤ n

instance (policy : StackingPolicy) (n : Nat) : Decidable (policyRejects policy n) :=
  match policy with
  | .NoStacking => inferInstanceAs (Decidable (n ≠ 0))
  | .NoStackingResetDuration => inferInstanceAs (Decidable (n ≠ 0))
  | .MultipleEffects m => inferInstanceAs (Decidable (m ≤ n))
  | .MultipleEffectsResetDurations m => inferInstanceAs (Decidable (m ≤ n))

/-- No stored effect has `Immediate` duration. -/
def noImmediate (es : List GameplayEffect) : Prop :=
  ∀ e ∈ es, e.duration ≠ .Immediate

/-! ## Concrete states used by the claim witnesses and counterexamples -/

/-- A stat set with every slot at base 100, current 100 (the repository tests'
`Health` initialization). -/
def scnStats0 : Stats := fun _ => GameplayStat.new (.num ⟨100, 1⟩) (.num ⟨100, 1⟩)

/-- An environment with no foreign entities. -/
def noEnv : Env := fun _ => none

/-- An empty stacking configuration (every tag defaults to `NoStacking`). -/
def noStackingCfg : TagId → Option StackingPolicy := fun _ => none

/-- The `test_persistent_removal` buff: Multiplicative x2, Persistent, tag 1. -/
def buff1 : GameplayEffect :=
  ⟨0, .Fixed (.num ⟨2, 1⟩), .Multiplicative, .Persistent none, some 1⟩

/-- The second x2 buff, tag 2. -/
def buff2 : GameplayEffect :=
  ⟨0, .Fixed (.num ⟨2, 1⟩), .Multiplicative, .Persistent none, some 2⟩

/-- The Immediate -100 Additive effect of `test_persistent_removal`. -/
def immDmg : GameplayEffect :=
  ⟨0, .Fixed (.num ⟨-100, 1⟩), .Additive, .Immediate, none⟩

/-- `test_persistent_removal` initial entity. -/
def scn0 : EffectEntity := ⟨scnStats0, [], []⟩

/-- After adding the first x2 buff. -/
def scn1 : EffectEntity := (add_effect 0 noEnv noStackingCfg buff1 none scn0).entity

/-- After adding the second x2 buff. -/
def scn2 : EffectEntity := (add_effect 0 noEnv noStackingCfg buff2 none scn1).entity

/-- After the Immediate -100. -/
def scn3 : EffectEntity := (add_effect 0 noEnv noStackingCfg immDmg none scn2).entity

/-- After removing the first buff. -/
def scn4 : EffectEntity := (remove_effect 0 noEnv (some 1) none scn3).1

/-- After removing the second buff. -/
def scn5 : EffectEntity := (remove_effect 0 noEnv (some 2) none scn4).1

/-! ## Helper lemmas -/

/-- Reading back the slot just written. -/
theorem Stats.get_setStat_self (s : Stats) (i : StatId) (v : GameplayStat) :
    (s.setStat i v).get i = v := by
  simp [Stats.get, Stats.setStat]

/-- A guarded left fold is the fold of the filtered list. -/
theorem foldl_if_filter {α β : Type} (p : α → Bool) (f : β → α → β) :
    ∀ (es : List α) (a : β),
      es.foldl (fun b e => if p e then f b e else b) a = (es.filter p).foldl f a
  | [], _ => rfl
  | e :: es, a => by
    by_cases h : p e <;>
      simp [List.filter_cons, h, foldl_if_filter p f es]

/-- The four accumulators of the recalculation pass evolve independently: the
combined fold is the quadruple of the four guarded folds. -/
theorem recalcLoop_split (self_entity : Entity) (self_stats : Stats) (env : Env)
    (stat : StatId) :
    ∀ (es : List GameplayEffect) (acc : RecalcAcc),
      recalcLoop self_entity self_stats env stat es acc =
        ⟨es.foldl (fun a e => if targetsWith stat .Additive e
              then a + effectAmount self_entity self_stats env e else a) acc.additive,
         es.foldl (fun a e => if targetsWith stat .Multiplicative e
              then a * effectAmount self_entity self_stats env e else a) acc.multiplicative,
         es.foldl (fun a e => if targetsWith stat .LowerBound e
              then fmax a (effectAmount self_entity self_stats env e) else a) acc.lower_bound,
         es.foldl (fun a e => if targetsWith stat .UpperBound e
              then fmin a (effectAmount self_entity self_stats env e) else a) acc.upper_bound⟩
  | [], acc => rfl
  | e :: es, acc => by
    have ih := recalcLoop_split self_entity self_stats env stat es
    simp only [recalcLoop, List.foldl_cons] at ih ⊢
    rw [ih]
    by_cases ht : e.stat_target = stat
    · cases hc : e.calculation <;> simp [targetsWith, ht, hc]
    · simp [targetsWith, ht]

/-- The accumulators of `recalculate_stats`, written as the four spec-side
aggregates. -/
theorem recalcLoop_agg (self_entity : Entity) (self_stats : Stats) (env : Env)
    (stat : StatId) (es : List GameplayEffect) :
    recalcLoop self_entity self_stats env stat es ⟨0, .num ⟨1, 1⟩, f32_min, f32_max⟩ =
      ⟨additiveSum self_entity self_stats env stat es,
       multiplicativeProduct self_entity self_stats env stat es,
       lowerBoundAgg self_entity self_stats env stat es,
       upperBoundAgg self_entity self_stats env stat es⟩ := by
  rw [recalcLoop_split]
  simp only [additiveSum, multiplicativeProduct, lowerBoundAgg, upperBoundAgg,
    foldl_if_filter]

/-! ## C1 -/

/-- C1: for every stat and every stored effect list, `recalculate_stats`
computes the new modified base as
`clamp((base_value + additive_sum) * multiplicative_product, lower, upper)`
over all stored effects targeting the stat, and (when no bound is breached)
rescales the current value by the factor `new_base / previous_modified_base`;
and the `test_persistent_removal` trace holds: two Persistent x2 effects on a
base-100 stat yield 400, an Immediate -100 yields 300, removing one x2 yields
150, removing the second yields 75. -/
theorem recalculate_matches_spec_formula :
    (∀ (self_entity : Entity) (es : List GameplayEffect) (stat : StatId)
        (stats : Stats) (env : Env),
       ((recalculate_stats self_entity es stat stats env).1.get stat).modified_base =
         specNewBase self_entity stats env stat es)
    ∧ (∀ (self_entity : Entity) (es : List GameplayEffect) (stat : StatId)
          (stats : Stats) (env : Env),
         fge (specRescaled self_entity stats env stat es)
             (upperBoundAgg self_entity stats env stat es) = false →
         fle (specRescaled self_entity stats env stat es)
             (lowerBoundAgg self_entity stats env stat es) = false →
         ((recalculate_stats self_entity es stat stats env).1.get stat).current_value =
           specRescaled self_entity stats env stat es)
    ∧ ((scn2.stats.get 0).current_value = .num ⟨400, 1⟩
        ∧ (scn3.stats.get 0).current_value = .num ⟨300, 1⟩
        ∧ (scn4.stats.get 0).current_value = .num ⟨150, 1⟩
        ∧ (scn5.stats.get 0).current_value = .num ⟨75, 1⟩) := by
  refine ⟨?_, ?_, by decide⟩
  · intro self_entity es stat stats env
    simp only [recalculate_stats, recalcLoop_agg, Stats.get_setStat_self,
      specNewBase, fclamp]
  · intro self_entity es stat stats env h1 h2
    simp only [specRescaled, specNewBase, fclamp] at h1 h2
    simp only [recalculate_stats, recalcLoop_agg, Stats.get_setStat_self,
      specRescaled, specNewBase, fclamp]
    simp [clampSteps, h1, h2]

/-- Witness for C1: the rescale clause applied to the one-buff state of the
removal scenario evaluates to current value 200. -/
theorem recalculate_matches_spec_formula_witness :
    ((recalculate_stats 0 [buff1] 0 scnStats0 noEnv).1.get 0).current_value =
      FP.num ⟨200, 1⟩ :=
  (recalculate_matches_spec_formula.2.1 0 [buff1] 0 scnStats0 noEnv
    (by decide) (by decide)).trans (by decide)

/-! ## C2 -/

/-- Refreshing a timer never changes an effect's tag. -/
theorem tag_set_duration_from (e : GameplayEffect) (t : SmallTimer) :
    (e.set_duration_from t).tag = e.tag := by
  rcases e with ⟨s, m, c, d, tg⟩
  cases d with
  | Immediate => rfl
  | Persistent o => cases o <;> rfl
  | Continuous o => cases o <;> rfl
  | Repeating p o => cases o <;> rfl

/-- Mapping a tag-preserving function over a list keeps every tag count. -/
theorem countTag_map (f : GameplayEffect → GameplayEffect)
    (hf : ∀ e, (f e).tag = e.tag) :
    ∀ (es : List GameplayEffect) (p : TagId), countTag (es.map f) p = countTag es p
  | [], _ => rfl
  | e :: es, p => by
    have ih := countTag_map f hf es p
    unfold countTag at ih ⊢
    simp only [List.map_cons, List.filter_cons, hf]
    by_cases h2 : e.tag = some p <;> simp [h2, ih]

/-- The timer-refresh pass keeps every same-tag count unchanged. -/
theorem countTag_refresh (es : List GameplayEffect) (tag : TagId)
    (inc : GameplayEffect) (t' : TagId) :
    countTag (refresh_same_tag es tag inc) t' = countTag es t' := by
  unfold refresh_same_tag
  cases inc.get_duration_timer with
  | none => rfl
  | some tm =>
    exact countTag_map _
      (fun e => by by_cases h : e.tag = some tag <;> simp [h, tag_set_duration_from])
      es t'

/-- C2: for a tagged, non-Immediate add request with a configured stacking
policy, the accept/reject/refresh outcome on the stored list matches the
policy table (`specStackingDecision`): `NoStacking` stores iff no same-tag
effect exists; `NoStackingResetDuration` stores iff none exists, otherwise
refreshes every same-tag timer and rejects; `MultipleEffects(max)` stores iff
the count is below `max`; `MultipleEffectsResetDurations(max)` always
refreshes, then stores iff the count is below `max`. -/
theorem add_effect_stacking_table (self_entity : Entity) (env : Env)
    (stacking : TagId → Option StackingPolicy) (effect : GameplayEffect)
    (tag : TagId) (policy : StackingPolicy) (src : Option Entity)
    (ent : EffectEntity)
    (hdur : effect.duration ≠ .Immediate) (htag : effect.tag = some tag)
    (hpol : stacking tag = some policy) :
    (add_effect self_entity env stacking effect src ent).entity.effects =
      (if (specStackingDecision policy (countTag ent.effects tag)).2
        then refresh_same_tag ent.effects tag effect else ent.effects) ++
      (if (specStackingDecision policy (countTag ent.effects tag)).1
        then [effect] else []) := by
  cases policy with
  | NoStacking =>
    by_cases hc : countTag ent.effects tag = 0 <;>
      simp [add_effect, storeStep, hdur, htag, hpol, hc, specStackingDecision]
  | NoStackingResetDuration =>
    by_cases hc : countTag ent.effects tag = 0 <;>
      simp [add_effect, storeStep, hdur, htag, hpol, hc, specStackingDecision]
  | MultipleEffects m =>
    by_cases hc : countTag ent.effects tag < m <;>
      simp [add_effect, storeStep, hdur, htag, hpol, hc, specStackingDecision]
  | MultipleEffectsResetDurations m =>
    by_cases hc : countTag ent.effects tag < m <;>
      simp [add_effect, storeStep, hdur, htag, hpol, hc, specStackingDecision,
        countTag_refresh]

/-- A Continuous -1/s effect with tag 1, as in the `test_no_stacking` test. -/
def contTagged : GameplayEffect :=
  ⟨0, .Fixed (.num ⟨-1, 1⟩), .Additive, .Continuous (some ⟨.num ⟨3, 1⟩⟩), some 1⟩

/-- Tag 1 configured as `NoStacking`. -/
def nsCfg : TagId → Option StackingPolicy :=
  fun t => if t = 1 then some .NoStacking else none

/-- The entity that already stores one tag-1 effect. -/
def c2Ent : EffectEntity := ⟨scnStats0, [contTagged], [1]⟩

/-- Witness for C2: a second same-tag add under `NoStacking` is rejected, the
stored list stays a single instance. -/
theorem add_effect_stacking_table_witness :
    (add_effect 0 noEnv nsCfg contTagged none c2Ent).entity.effects = [contTagged] :=
  (add_effect_stacking_table 0 noEnv nsCfg contTagged 1 .NoStacking none c2Ent
    (by decide) (by decide) (by decide)).trans (by decide)

/-! ## C3 -/

/-- A stat slot after a +50 Persistent effect was applied: base 100,
modified base 150, current 150. -/
def expStats : Stats := fun _ => ⟨.num ⟨150, 1⟩, .num ⟨100, 1⟩, .num ⟨150, 1⟩⟩

/-- A stored +50 Persistent effect whose expiry timer has one second left. -/
def expEffect : GameplayEffect :=
  ⟨0, .Fixed (.num ⟨50, 1⟩), .Additive, .Persistent (some ⟨.num ⟨1, 1⟩⟩), none⟩

/-- The entity holding that effect. -/
def expEnt : EffectEntity := ⟨expStats, [expEffect], []⟩

/-- Counterexample for C3: ticking one second expires and removes the stored
Persistent +50 effect, but the processor leaves `modified_base` at 150 —
whereas invoking `recalculate_stats` on the now-empty effect list (as the
claim requires) yields 100.  The processor's removal pass never calls
`recalculate_stats`. -/
theorem tick_expiry_skips_recalculate_cex :
    (process_active_effects 0 noEnv (.num ⟨1, 1⟩) expEnt).map
        (fun o => ((o.stats.get 0).modified_base, o.effects.length)) =
      some (.num ⟨150, 1⟩, 0)
    ∧ ((recalculate_stats 0 [] 0 expStats noEnv).1.get 0).modified_base =
        .num ⟨100, 1⟩ := by
  decide

/-- The removal loop of the processor succeeds on a strictly descending,
in-bounds index list: the result is `ds.length` elements shorter and carries
one `OnEffectRemoved` notification, holding the marked effect's tag, per
index. -/
theorem removeMarked_descending (self_entity : Entity) :
    ∀ (ds : List Nat) (es : List GameplayEffect) (tags : List TagId)
      (evs : List EffectMetadata),
      List.Pairwise (· > ·) ds → (∀ i ∈ ds, i < es.length) →
      ∃ r, removeMarked self_entity es tags ds evs = some r ∧
        r.1.length = es.length - ds.length ∧
        r.2.2 = evs ++ ds.map
          (fun i => ⟨self_entity, (es[i]?.map (fun e => e.tag)).getD none, none⟩)
  | [], es, tags, evs, _, _ => ⟨(es, tags, evs), rfl, by simp, by simp⟩
  | d :: ds, es, tags, evs, hs, hb => by
    have hd : d < es.length := hb d (by simp)
    have he : es[d]? = some es[d] := List.getElem?_eq_getElem hd
    have hlt := (List.pairwise_cons.mp hs).1
    have hs2 := (List.pairwise_cons.mp hs).2
    have hb' : ∀ i ∈ ds, i < (es.eraseIdx d).length := by
      intro i hi
      have h1 : i < d := hlt i hi
      rw [List.length_eraseIdx_of_lt hd]
      omega
    obtain ⟨r, hr, hlen, hevs⟩ :=
      removeMarked_descending self_entity ds (es.eraseIdx d)
        (match (es[d]).tag with
         | some t => tagsRemove tags t
         | none => tags)
        (evs ++ [⟨self_entity, (es[d]).tag, none⟩]) hs2 hb'
    refine ⟨r, ?_, ?_, ?_⟩
    · rw [removeMarked, he]
      exact hr
    · rw [hlen, List.length_eraseIdx_of_lt hd]
      simp only [List.length_cons]
      omega
    · rw [hevs]
      have hmap : ds.map
            (fun i => (⟨self_entity, ((es.eraseIdx d)[i]?.map (fun e => e.tag)).getD none,
              none⟩ : EffectMetadata)) =
          ds.map (fun i => ⟨self_entity, (es[i]?.map (fun e => e.tag)).getD none, none⟩) := by
        apply List.map_congr_left
        intro i hi
        rw [List.getElem?_eraseIdx_of_lt es d i (hlt i hi)]
      rw [hmap]
      simp [List.map_cons, he, List.append_assoc]

/-- C3 (amended): after the per-tick pass, the marked effects are removed in
reverse index order and an `OnEffectRemoved` notification is emitted per
removed effect, but — contrary to the claim — `recalculate_stats` is NOT
invoked for the removed effects' target stats: the resulting stats are
exactly the apply-phase stats. -/
theorem tick_removal_emits_without_recalc (self_entity : Entity) (env : Env)
    (delta : FP) (ent : EffectEntity)
    (hs : List.Pairwise (· > ·) (procApply self_entity env delta ent).removed.reverse)
    (hb : ∀ i ∈ (procApply self_entity env delta ent).removed.reverse,
            i < (procTicked delta ent).length) :
    ∃ out, process_active_effects self_entity env delta ent = some out
      ∧ out.stats = (procApply self_entity env delta ent).stats
      ∧ out.effects.length =
          (procTicked delta ent).length -
            (procApply self_entity env delta ent).removed.length
      ∧ out.removedEv = (procApply self_entity env delta ent).removed.reverse.map
          (fun i => ⟨self_entity,
            ((procTicked delta ent)[i]?.map (fun e => e.tag)).getD none, none⟩) := by
  obtain ⟨r, hr, hlen, hevs⟩ :=
    removeMarked_descending self_entity
      (procApply self_entity env delta ent).removed.reverse
      (procTicked delta ent) ent.tags [] hs hb
  refine ⟨⟨(procApply self_entity env delta ent).stats, r.1, r.2.1, r.2.2,
      (procApply self_entity env delta ent).breached,
      (procApply self_entity env delta ent).periodic⟩, ?_, rfl, ?_, ?_⟩
  · rw [process_active_effects, hr]
  · simpa using hlen
  · simpa using hevs

/-- Witness for C3's amended claim: on the expiring-effect entity the
processor succeeds, keeps the apply-phase stats untouched by the removal
pass, empties the list and emits one removal notification. -/
theorem tick_removal_emits_without_recalc_witness :
    ∃ out, process_active_effects 0 noEnv (.num ⟨1, 1⟩) expEnt = some out
      ∧ out.stats = (procApply 0 noEnv (.num ⟨1, 1⟩) expEnt).stats
      ∧ out.effects.length =
          (procTicked (.num ⟨1, 1⟩) expEnt).length -
            (procApply 0 noEnv (.num ⟨1, 1⟩) expEnt).removed.length
      ∧ out.removedEv = (procApply 0 noEnv (.num ⟨1, 1⟩) expEnt).removed.reverse.map
          (fun i => ⟨0, ((procTicked (.num ⟨1, 1⟩) expEnt)[i]?.map
            (fun e => e.tag)).getD none, none⟩) :=
  tick_removal_emits_without_recalc 0 noEnv (.num ⟨1, 1⟩) expEnt
    (by decide) (by decide)

/-! ## C4 -/

/-- The candidate current value `apply_immediate` computes before clamping
(`calculation.rs` lines 82-87). -/
def immediateCandidate (effect : GameplayEffect) (stats : Stats) (amount : FP) : FP :=
  match effect.calculation with
  | .Additive => (stats.get effect.stat_target).current_value + amount
  | .Multiplicative => (stats.get effect.stat_target).current_value * amount
  | .LowerBound => fmax (stats.get effect.stat_target).current_value amount
  | .UpperBound => fmin (stats.get effect.stat_target).current_value amount

/-- The breach events of the shared clamp tail: UpperBound is emitted iff the
candidate is `>=` the upper bound; LowerBound is emitted iff the value left
by the upper clamp is `<=` the lower bound. -/
theorem clampSteps_mem (self_entity : Entity) (stat : StatId) (v ub lb : FP) :
    ((⟨self_entity, stat, .UpperBound⟩ : BoundsBreachedMetadata) ∈
        (clampSteps self_entity stat v ub lb).2 ↔ fge v ub = true)
    ∧ ((⟨self_entity, stat, .LowerBound⟩ : BoundsBreachedMetadata) ∈
        (clampSteps self_entity stat v ub lb).2 ↔
      fle (if fge v ub then ub else v) lb = true) := by
  by_cases h1 : fge v ub = true
  · by_cases h2 : fle ub lb = true <;> simp [clampSteps, h1, h2]
  · by_cases h2 : fle v lb = true <;> simp [clampSteps, h1, h2]

/-- The events of `apply_immediate` are the clamp tail's events at the
candidate value and the live bounds. -/
theorem apply_immediate_events (self_entity : Entity) (effect : GameplayEffect)
    (stats : Stats) (amount : FP) (effects : List GameplayEffect) (env : Env) :
    (apply_immediate self_entity effect stats amount effects env).2 =
      (clampSteps self_entity effect.stat_target
        (immediateCandidate effect stats amount)
        (get_bounds effect.stat_target self_entity effects stats env).1
        (get_bounds effect.stat_target self_entity effects stats env).2).2 := rfl

/-- The events of `recalculate_stats` are the clamp tail's events at the
rescaled value and the aggregated bounds. -/
theorem recalculate_stats_events (self_entity : Entity) (es : List GameplayEffect)
    (stat : StatId) (stats : Stats) (env : Env) :
    (recalculate_stats self_entity es stat stats env).2 =
      (clampSteps self_entity stat (specRescaled self_entity stats env stat es)
        (upperBoundAgg self_entity stats env stat es)
        (lowerBoundAgg self_entity stats env stat es)).2 := by
  simp only [recalculate_stats, recalcLoop_agg, specRescaled, specNewBase, fclamp]

/-- C4 (amended): in both `apply_immediate` and `recalculate_stats`, a breach
event tagged with a bound is emitted iff the candidate value *reaches or
crosses* that bound (`>=` upper, resp. `<=` lower after the upper clamp) —
not iff clamping actually changes the value: a candidate exactly at the bound
emits an event although clamping leaves it unchanged. -/
theorem breach_iff_reaches_bound :
    (∀ (self_entity : Entity) (effect : GameplayEffect) (stats : Stats)
        (amount : FP) (effects : List GameplayEffect) (env : Env),
      ((⟨self_entity, effect.stat_target, .UpperBound⟩ : BoundsBreachedMetadata) ∈
          (apply_immediate self_entity effect stats amount effects env).2 ↔
        fge (immediateCandidate effect stats amount)
          (get_bounds effect.stat_target self_entity effects stats env).1 = true)
      ∧ ((⟨self_entity, effect.stat_target, .LowerBound⟩ : BoundsBreachedMetadata) ∈
          (apply_immediate self_entity effect stats amount effects env).2 ↔
        fle (if fge (immediateCandidate effect stats amount)
                  (get_bounds effect.stat_target self_entity effects stats env).1
              then (get_bounds effect.stat_target self_entity effects stats env).1
              else immediateCandidate effect stats amount)
          (get_bounds effect.stat_target self_entity effects stats env).2 = true))
    ∧ (∀ (self_entity : Entity) (es : List GameplayEffect) (stat : StatId)
          (stats : Stats) (env : Env),
      ((⟨self_entity, stat, .UpperBound⟩ : BoundsBreachedMetadata) ∈
          (recalculate_stats self_entity es stat stats env).2 ↔
        fge (specRescaled self_entity stats env stat es)
          (upperBoundAgg self_entity stats env stat es) = true)
      ∧ ((⟨self_entity, stat, .LowerBound⟩ : BoundsBreachedMetadata) ∈
          (recalculate_stats self_entity es stat stats env).2 ↔
        fle (if fge (specRescaled self_entity stats env stat es)
                  (upperBoundAgg self_entity stats env stat es)
              then upperBoundAgg self_entity stats env stat es
              else specRescaled self_entity stats env stat es)
          (lowerBoundAgg self_entity stats env stat es) = true)) := by
  constructor
  · intro self_entity effect stats amount effects env
    rw [apply_immediate_events]
    exact clampSteps_mem self_entity effect.stat_target
      (immediateCandidate effect stats amount)
      (get_bounds effect.stat_target self_entity effects stats env).1
      (get_bounds effect.stat_target self_entity effects stats env).2
  · intro self_entity es stat stats env
    rw [recalculate_stats_events]
    exact clampSteps_mem self_entity stat (specRescaled self_entity stats env stat es)
      (upperBoundAgg self_entity stats env stat es)
      (lowerBoundAgg self_entity stats env stat es)

/-- A Persistent UpperBound 150 effect as stored by `test_upper_bound`. -/
def ubEffect : GameplayEffect :=
  ⟨0, .Fixed (.num ⟨150, 1⟩), .UpperBound, .Persistent none, none⟩

/-- An Immediate +50 Additive effect. -/
def immPlus50 : GameplayEffect :=
  ⟨0, .Fixed (.num ⟨50, 1⟩), .Additive, .Immediate, none⟩

/-- Counterexample for C4: applying Immediate +50 to a 100-current stat under
an upper bound of exactly 150 produces the candidate 150, which clamping does
not change — yet an UpperBound breach event is still emitted, refuting
"emitted if and only if clamping actually changes the value". -/
theorem breach_at_exact_bound_cex :
    (apply_immediate 0 immPlus50 scnStats0 (.num ⟨50, 1⟩) [ubEffect] noEnv).2 =
      [⟨0, 0, .UpperBound⟩]
    ∧ ((apply_immediate 0 immPlus50 scnStats0 (.num ⟨50, 1⟩) [ubEffect]
          noEnv).1.get 0).current_value = .num ⟨150, 1⟩
    ∧ (scnStats0.get 0).current_value + .num ⟨50, 1⟩ = .num ⟨150, 1⟩ := by
  decide

/-! ## C5 -/

/-- A stat whose modified base has reached exactly zero (base 0, current 0). -/
def c5Stats : Stats := fun _ => ⟨.num ⟨0, 1⟩, .num ⟨0, 1⟩, .num ⟨0, 1⟩⟩

/-- A stored Persistent +5 Additive effect. -/
def addFive : GameplayEffect :=
  ⟨0, .Fixed (.num ⟨5, 1⟩), .Additive, .Persistent none, none⟩

/-- C5: `recalculate_stats` has no special case for a zero previous modified
base — the rescale divides by zero (`5 / 0 = +inf`, `0 * +inf = nan`) and the
NaN propagates into `current_value`, contrary to the claimed guard. -/
theorem zero_prev_base_propagates_nan :
    ((recalculate_stats 0 [addFive] 0 c5Stats noEnv).1.get 0).current_value =
      FP.nan
    ∧ ((recalculate_stats 0 [addFive] 0 c5Stats noEnv).1.get 0).modified_base =
      .num ⟨5, 1⟩ := by
  decide

/-! ## C7 -/

/-- An untagged Continuous +0 effect with a long timer. -/
def contEff : GameplayEffect :=
  ⟨0, .Fixed (.num ⟨0, 1⟩), .Additive, .Continuous (some ⟨.num ⟨100, 1⟩⟩), none⟩

/-- An entity whose effect list is at the inline capacity of 24. -/
def fullEnt : EffectEntity := ⟨scnStats0, List.replicate 24 contEff, []⟩

/-- Counterexample for C7: with 24 stored effects (the `ACTIVE_EFFECTS_SIZE`
inline capacity of the `SmallVec`), a further add is *not* rejected: the
25th effect is stored and `OnEffectAdded` is emitted. -/
theorem capacity_not_rejected_cex :
    (add_effect 0 noEnv noStackingCfg contEff none fullEnt).entity.effects.length = 25
    ∧ (add_effect 0 noEnv noStackingCfg contEff none fullEnt).added ≠ [] := by
  decide

/-- C7 (amended): `add_effect` performs no capacity check at all — an
untagged, non-Immediate effect is always appended to the stored list,
whatever its current length (24 is only the inline, allocation-free storage
of the `SmallVec`, which spills past it). -/
theorem add_effect_untagged_always_appends (self_entity : Entity) (env : Env)
    (stacking : TagId → Option StackingPolicy) (effect : GameplayEffect)
    (src : Option Entity) (ent : EffectEntity)
    (hdur : effect.duration ≠ .Immediate) (htag : effect.tag = none) :
    (add_effect self_entity env stacking effect src ent).entity.effects =
      ent.effects ++ [effect] := by
  simp [add_effect, storeStep, hdur, htag]

/-- Witness for C7's amended claim: the add at inline capacity appends a 25th
element. -/
theorem add_effect_untagged_always_appends_witness :
    (add_effect 0 noEnv noStackingCfg contEff none fullEnt).entity.effects =
      List.replicate 24 contEff ++ [contEff] :=
  add_effect_untagged_always_appends 0 noEnv noStackingCfg contEff none fullEnt
    (by decide) rfl

/-! ## C9 -/

/-- C9: when the stacking policy rejects a tagged, non-Immediate add request,
the call leaves the stats untouched, leaves the stored list unchanged apart
from the refreshes the policy prescribes, and emits neither `OnEffectAdded`
nor `OnBoundsBreached`. -/
theorem rejected_add_is_pure (self_entity : Entity) (env : Env)
    (stacking : TagId → Option StackingPolicy) (effect : GameplayEffect)
    (tag : TagId) (policy : StackingPolicy) (src : Option Entity)
    (ent : EffectEntity)
    (hdur : effect.duration ≠ .Immediate) (htag : effect.tag = some tag)
    (hpol : stacking tag = some policy)
    (hrej : policyRejects policy (countTag ent.effects tag)) :
    (add_effect self_entity env stacking effect src ent).entity.stats = ent.stats
    ∧ (add_effect self_entity env stacking effect src ent).entity.effects =
        (if (specStackingDecision policy (countTag ent.effects tag)).2
          then refresh_same_tag ent.effects tag effect else ent.effects)
    ∧ (add_effect self_entity env stacking effect src ent).added = []
    ∧ (add_effect self_entity env stacking effect src ent).breached = [] := by
  cases policy with
  | NoStacking =>
    simp only [policyRejects] at hrej
    simp [add_effect, storeStep, hdur, htag, hpol, hrej, specStackingDecision]
  | NoStackingResetDuration =>
    simp only [policyRejects] at hrej
    simp [add_effect, storeStep, hdur, htag, hpol, hrej, specStackingDecision]
  | MultipleEffects m =>
    simp only [policyRejects] at hrej
    have hc : ¬ countTag ent.effects tag < m := Nat.not_lt.mpr hrej
    simp [add_effect, storeStep, hdur, htag, hpol, hc, specStackingDecision]
  | MultipleEffectsResetDurations m =>
    simp only [policyRejects] at hrej
    have hc : ¬ countTag ent.effects tag < m := Nat.not_lt.mpr hrej
    simp [add_effect, storeStep, hdur, htag, hpol, hc, specStackingDecision,
      countTag_refresh]

/-- Witness for C9: the rejected duplicate `NoStacking` add emits nothing and
leaves the stats function untouched. -/
theorem rejected_add_is_pure_witness :
    (add_effect 0 noEnv nsCfg contTagged none c2Ent).entity.stats = c2Ent.stats
    ∧ (add_effect 0 noEnv nsCfg contTagged none c2Ent).added = []
    ∧ (add_effect 0 noEnv nsCfg contTagged none c2Ent).breached = [] :=
  have h := rejected_add_is_pure 0 noEnv nsCfg contTagged 1 .NoStacking none c2Ent
    (by decide) (by decide) (by decide) (by decide)
  ⟨h.1, h.2.2.1, h.2.2.2⟩

/-! ## C10 -/

/-- A Continuous effect reading despawned entity 7, expiring this tick: its
index gets marked twice in one pass (stale source and finished timer). -/
def dblEff : GameplayEffect :=
  ⟨0, .NonlocalStat 0 StatScalingParams.default 7, .Additive,
    .Continuous (some ⟨.num ⟨1, 1⟩⟩), none⟩

/-- The doubly-marked effect alone. -/
def c10aEnt : EffectEntity := ⟨scnStats0, [dblEff], []⟩

/-- A permanent, unmarked second effect stored after the doubly-marked one. -/
def pperEff : GameplayEffect :=
  ⟨0, .Fixed (.num ⟨1, 1⟩), .Additive, .Persistent none, some 5⟩

/-- The doubly-marked effect followed by the unmarked permanent one. -/
def c10bEnt : EffectEntity := ⟨scnStats0, [dblEff, pperEff], [5]⟩

/-- C10: a single effect marked twice in one pass (stale NonlocalStat source
and finished expiry timer) makes the removal loop remove index 0 twice.
With the effect alone the second removal indexes out of bounds
(`SmallVec::remove` panics, modelled as `none`); with an unmarked permanent
effect stored behind it, that unmarked effect is removed as well, leaving the
list empty. -/
theorem double_mark_double_removal_cex :
    (process_active_effects 0 noEnv (.num ⟨1, 1⟩) c10aEnt).isNone = true
    ∧ (process_active_effects 0 noEnv (.num ⟨1, 1⟩) c10bEnt).map
        (fun o => o.effects) = some []
    ∧ (procApply 0 noEnv (.num ⟨1, 1⟩) c10bEnt).removed = [0, 0] := by
  decide

/-! ## C8 -/

/-- Refreshing a timer never changes an effect's duration *kind*; in
particular it never produces an `Immediate` duration. -/
theorem set_duration_from_not_immediate (e : GameplayEffect) (t : SmallTimer)
    (h : e.duration ≠ .Immediate) : (e.set_duration_from t).duration ≠ .Immediate := by
  rcases e with ⟨s, m, c, d, tg⟩
  cases d with
  | Immediate => exact absurd rfl h
  | Persistent o => cases o <;> simp [GameplayEffect.set_duration_from]
  | Continuous o => cases o <;> simp [GameplayEffect.set_duration_from]
  | Repeating p o => cases o <;> simp [GameplayEffect.set_duration_from]

/-- The timer-refresh pass preserves the no-Immediate invariant. -/
theorem noImmediate_refresh (es : List GameplayEffect) (tag : TagId)
    (inc : GameplayEffect) (h : noImmediate es) :
    noImmediate (refresh_same_tag es tag inc) := by
  intro e he
  unfold refresh_same_tag at he
  cases hti : inc.get_duration_timer with
  | none => rw [hti] at he; exact h e he
  | some tm =>
    rw [hti] at he
    obtain ⟨e0, he0, rfl⟩ := List.mem_map.mp he
    by_cases h2 : e0.tag = some tag
    · simpa [h2] using set_duration_from_not_immediate e0 tm (h e0 he0)
    · simpa [h2] using h e0 he0

/-- Appending under the invariant. -/
theorem noImmediate_append (es1 es2 : List GameplayEffect)
    (h1 : noImmediate es1) (h2 : noImmediate es2) : noImmediate (es1 ++ es2) := by
  intro e he
  rcases List.mem_append.mp he with h | h
  · exact h1 e h
  · exact h2 e h

/-- The storage step only pushes the (non-Immediate) incoming effect or
refreshes timers. -/
theorem noImmediate_storeStep (stacking : TagId → Option StackingPolicy)
    (effect : GameplayEffect) (ent : EffectEntity)
    (h : noImmediate ent.effects) :
    noImmediate (storeStep stacking effect ent).1.effects := by
  unfold storeStep
  by_cases hd : effect.duration = .Immediate
  · simpa [hd] using h
  · have hone : noImmediate [effect] := by
      intro e he
      rw [List.mem_singleton.mp he]
      exact hd
    simp only [hd, if_neg, if_false]
    cases ht : effect.tag with
    | none => simpa using noImmediate_append _ _ h hone
    | some tag =>
      cases hpol : (stacking tag).getD .NoStacking with
      | NoStacking =>
        by_cases hc : countTag ent.effects tag = 0 <;>
          simp only [hpol, hc, if_true, if_false] <;>
          first
            | simpa using noImmediate_append _ _ h hone
            | simpa using h
      | NoStackingResetDuration =>
        by_cases hc : countTag ent.effects tag = 0 <;>
          simp only [hpol, hc, if_true, if_false] <;>
          first
            | simpa using noImmediate_append _ _ h hone
            | simpa using noImmediate_refresh _ tag effect h
      | MultipleEffects m =>
        by_cases hc : countTag ent.effects tag < m <;>
          simp only [hpol, hc, if_true, if_false] <;>
          first
            | simpa using noImmediate_append _ _ h hone
            | simpa using h
      | MultipleEffectsResetDurations m =>
        by_cases hc : countTag (refresh_same_tag ent.effects tag effect) tag < m <;>
          simp only [hpol, hc, if_true, if_false] <;>
          first
            | simpa using noImmediate_append _ _ (noImmediate_refresh _ tag effect h) hone
            | simpa using noImmediate_refresh _ tag effect h

/-- `remove_effect`'s removal loop only erases elements. -/
theorem noImmediate_removeLoop (self_entity : Entity) (env : Env)
    (src : Option Entity) :
    ∀ (ds : List Nat) (ent : EffectEntity) (evs : List EffectMetadata)
      (brs : List BoundsBreachedMetadata),
      noImmediate ent.effects →
      noImmediate (removeLoop self_entity env src ds ent evs brs).1.effects
  | [], _, _, _, h => h
  | i :: ds, ent, evs, brs, h => by
    rw [removeLoop]
    cases hei : ent.effects[i]? with
    | none => exact noImmediate_removeLoop self_entity env src ds ent evs brs h
    | some e =>
      apply noImmediate_removeLoop
      intro x hx
      exact h x (List.mem_of_mem_eraseIdx hx)

/-- Ticking timers preserves each duration's kind. -/
theorem noImmediate_tick (delta : FP) (es : List GameplayEffect)
    (h : noImmediate es) : noImmediate (tick_durations delta es) := by
  intro e he
  obtain ⟨e0, he0, rfl⟩ := List.mem_map.mp he
  have h0 := h e0 he0
  rcases e0 with ⟨s, m, c, d, tg⟩
  cases d with
  | Immediate => exact absurd rfl h0
  | Persistent o => cases o <;> simp
  | Continuous o => cases o <;> simp
  | Repeating p o => cases o <;> simp

/-- The processor's removal loop only erases elements. -/
theorem noImmediate_removeMarked (self_entity : Entity) :
    ∀ (ds : List Nat) (es : List GameplayEffect) (tags : List TagId)
      (evs : List EffectMetadata)
      (r : List GameplayEffect × List TagId × List EffectMetadata),
      noImmediate es → removeMarked self_entity es tags ds evs = some r →
      noImmediate r.1
  | [], es, tags, evs, r, h, hr => by
    rw [removeMarked] at hr
    cases hr
    exact h
  | i :: ds, es, tags, evs, r, h, hr => by
    rw [removeMarked] at hr
    cases hei : es[i]? with
    | none => rw [hei] at hr; cases hr
    | some e =>
      rw [hei] at hr
      exact noImmediate_removeMarked self_entity ds (es.eraseIdx i) _ _ r
        (fun x hx => h x (List.mem_of_mem_eraseIdx hx)) hr

/-- C8: an `ActiveEffects` list holding no Immediate-duration effect never
comes to hold one — `add_effect` applies an Immediate effect without storing
it, and `remove_effect` and `process_active_effects` only erase elements or
mutate timers, so the invariant is preserved by all three operations. -/
theorem stored_effects_never_immediate :
    (∀ (self_entity : Entity) (env : Env) (stacking : TagId → Option StackingPolicy)
        (effect : GameplayEffect) (src : Option Entity) (ent : EffectEntity),
      noImmediate ent.effects →
      noImmediate (add_effect self_entity env stacking effect src ent).entity.effects)
    ∧ (∀ (self_entity : Entity) (env : Env) (tag : Option TagId)
          (src : Option Entity) (ent : EffectEntity),
      noImmediate ent.effects →
      noImmediate (remove_effect self_entity env tag src ent).1.effects)
    ∧ (∀ (self_entity : Entity) (env : Env) (delta : FP) (ent : EffectEntity)
          (out : ProcOut),
      noImmediate ent.effects →
      process_active_effects self_entity env delta ent = some out →
      noImmediate out.effects) := by
  refine ⟨?_, ?_, ?_⟩
  · intro self_entity env stacking effect src ent h
    unfold add_effect
    by_cases hs : (storeStep stacking effect ent).2 = false <;>
      simpa [hs] using noImmediate_storeStep stacking effect ent h
  · intro self_entity env tag src ent h
    unfold remove_effect
    cases tag <;> exact noImmediate_removeLoop _ _ _ _ _ _ _ h
  · intro self_entity env delta ent out h hout
    simp only [process_active_effects] at hout
    cases hrm : removeMarked self_entity (procTicked delta ent) ent.tags
        (procApply self_entity env delta ent).removed.reverse [] with
    | none => rw [hrm] at hout; cases hout
    | some r =>
      obtain ⟨e1, t1, v1⟩ := r
      rw [hrm] at hout
      cases hout
      exact noImmediate_removeMarked self_entity _ _ _ _ (e1, t1, v1)
        (noImmediate_tick delta ent.effects h) hrm

/-- Witness for C8: adding the Persistent x2 buff to the empty list keeps the
invariant: the single stored effect is not Immediate. -/
theorem stored_effects_never_immediate_witness :
    noImmediate (add_effect 0 noEnv noStackingCfg buff1 none scn0).entity.effects :=
  stored_effects_never_immediate.1 0 noEnv noStackingCfg buff1 none scn0
    (by intro e he; cases he)

/-! ## C6 -/

/-- One apply-phase step only appends to the removal marks. -/
theorem applyStep_removed (self_entity : Entity) (env : Env) (delta : FP)
    (all : List GameplayEffect) (effect : GameplayEffect) (idx : Nat)
    (acc : ApplyAcc) :
    ∃ u, (applyStep self_entity env delta all effect idx acc).removed =
      acc.removed ++ u := by
  unfold applyStep
  cases h2 : effect.get_duration_timer with
  | none =>
    by_cases h1 : (effect.magnitude.isNonlocal &&
        (get_effect_source_stats effect self_entity acc.stats env).isNone) = true
    · exact ⟨[idx], by simp [h1, h2]⟩
    · exact ⟨[], by simp [h1, h2]⟩
  | some t =>
    by_cases h1 : (effect.magnitude.isNonlocal &&
        (get_effect_source_stats effect self_entity acc.stats env).isNone) = true
    · by_cases h3 : t.finished = true
      · exact ⟨[idx, idx], by simp [h1, h2, h3]⟩
      · exact ⟨[idx], by simp [h1, h2, h3]⟩
    · by_cases h3 : t.finished = true
      · exact ⟨[idx], by simp [h1, h2, h3]⟩
      · exact ⟨[], by simp [h1, h2, h3]⟩

/-- Marks survive the rest of the apply phase. -/
theorem applyLoop_removed_mono (self_entity : Entity) (env : Env) (delta : FP)
    (all : List GameplayEffect) :
    ∀ (es : List GameplayEffect) (idx : Nat) (acc : ApplyAcc) (x : Nat),
      x ∈ acc.removed → x ∈ (applyLoop self_entity env delta all es idx acc).removed
  | [], _, _, _, hx => hx
  | e :: es, idx, acc, x, hx => by
    simp only [applyLoop]
    apply applyLoop_removed_mono
    obtain ⟨u, hu⟩ := applyStep_removed self_entity env delta all e idx acc
    rw [hu]
    exact List.mem_append_left u hx

/-- A stale `NonlocalStat` effect (despawned source entity) is marked for
removal by its own apply-phase step. -/
theorem applyStep_marks_stale (self_entity : Entity) (env : Env) (delta : FP)
    (all : List GameplayEffect) (effect : GameplayEffect) (idx : Nat)
    (acc : ApplyAcc) (st : StatId) (f : StatScalingParams) (src : Entity)
    (hm : effect.magnitude = .NonlocalStat st f src) (hne : src ≠ self_entity)
    (henv : env src = none) :
    idx ∈ (applyStep self_entity env delta all effect idx acc).removed := by
  have h1 : (effect.magnitude.isNonlocal &&
      (get_effect_source_stats effect self_entity acc.stats env).isNone) = true := by
    simp [EffectMagnitude.isNonlocal, get_effect_source_stats, hm, hne, henv]
  unfold applyStep
  cases h2 : effect.get_duration_timer with
  | none => simp [h1, h2]
  | some t =>
    by_cases h3 : t.finished = true <;> simp [h1, h2, h3]

/-- A stale `NonlocalStat` effect at any position of the pass is marked. -/
theorem applyLoop_marks_stale (self_entity : Entity) (env : Env) (delta : FP)
    (all : List GameplayEffect) :
    ∀ (es : List GameplayEffect) (idx : Nat) (acc : ApplyAcc) (k : Nat)
      (e : GameplayEffect) (st : StatId) (f : StatScalingParams) (src : Entity),
      es[k]? = some e → e.magnitude = .NonlocalStat st f src →
      src ≠ self_entity → env src = none →
      (idx + k) ∈ (applyLoop self_entity env delta all es idx acc).removed
  | [], _, _, k, _, _, _, _, hk, _, _, _ => by simp at hk
  | e0 :: es, idx, acc, 0, e, st, f, src, hk, hm, hne, henv => by
    simp only [List.getElem?_cons_zero, Option.some.injEq] at hk
    subst hk
    simp only [applyLoop, Nat.add_zero]
    exact applyLoop_removed_mono self_entity env delta all es (idx + 1) _ idx
      (applyStep_marks_stale self_entity env delta all e0 idx acc st f src hm hne henv)
  | e0 :: es, idx, acc, k + 1, e, st, f, src, hk, hm, hne, henv => by
    simp only [List.getElem?_cons_succ] at hk
    simp only [applyLoop]
    have h := applyLoop_marks_stale self_entity env delta all es (idx + 1)
      (applyStep self_entity env delta all e0 idx acc) k e st f src hk hm hne henv
    have harith : idx + (k + 1) = idx + 1 + k := by omega
    rw [harith]
    exact h

/-- A Continuous effect reading despawned entity 7, with 4 seconds left after
the tick. -/
def staleEff : GameplayEffect :=
  ⟨0, .NonlocalStat 0 StatScalingParams.default 7, .Additive,
    .Continuous (some ⟨.num ⟨5, 1⟩⟩), none⟩

/-- The entity holding only the stale-source effect. -/
def c6Ent : EffectEntity := ⟨scnStats0, [staleEff], []⟩

/-- C6: magnitude resolution of a stored effect whose `NonlocalStat` source
entity has despawned does not crash: the resolved amount is zero (it
contributes nothing to concurrent aggregation), the per-tick processor marks
the effect for removal on that tick, and on the concrete one-effect entity
the tick removes it while leaving the stat untouched. -/
theorem stale_nonlocal_marks_and_contributes_zero :
    (∀ (e : GameplayEffect) (st : StatId) (f : StatScalingParams) (src : Entity),
       e.magnitude = .NonlocalStat st f src → get_effect_amount e none = 0)
    ∧ (∀ (self_entity : Entity) (env : Env) (delta : FP) (ent : EffectEntity)
          (k : Nat) (e : GameplayEffect) (st : StatId) (f : StatScalingParams)
          (src : Entity),
        (procTicked delta ent)[k]? = some e →
        e.magnitude = .NonlocalStat st f src → src ≠ self_entity →
        env src = none →
        k ∈ (procApply self_entity env delta ent).removed)
    ∧ ((process_active_effects 0 noEnv (.num ⟨1, 1⟩) c6Ent).map
          (fun o => (o.effects.length, (o.stats.get 0).current_value)) =
        some (0, .num ⟨100, 1⟩)) := by
  refine ⟨?_, ?_, by decide⟩
  · intro e st f src hm
    simp [get_effect_amount, hm]
  · intro self_entity env delta ent k e st f src hk hm hne henv
    have h := applyLoop_marks_stale self_entity env delta (procTicked delta ent)
      (procTicked delta ent) 0 ⟨ent.stats, [], [], []⟩ k e st f src hk hm hne henv
    simpa [procApply] using h

/-- Witness for C6: on the concrete stale-source entity, index 0 is marked by
the apply phase of the tick. -/
theorem stale_nonlocal_marks_and_contributes_zero_witness :
    (0 : Nat) ∈ (procApply 0 noEnv (.num ⟨1, 1⟩) c6Ent).removed :=
  stale_nonlocal_marks_and_contributes_zero.2.1 0 noEnv (.num ⟨1, 1⟩) c6Ent 0
    ⟨0, .NonlocalStat 0 StatScalingParams.default 7, .Additive,
      .Continuous (some ⟨.num ⟨4, 1⟩⟩), none⟩
    0 StatScalingParams.default 7 (by decide) (by decide) (by decide) rfl

end GameplayEffects
